import Mathlib

/-!
SwiftXR3d: verification of the session-state and interaction logic.

Shallow embedding of the state management in `src/App.tsx` (the
`SwiftXR3DEditor` component and its helpers `handleFileUpload`,
`addHotspot`, `deleteHotspot`, `clearHotspots`, and the `Model`
component's `handleClick`).

Conventions of the embedding:
* JavaScript strings are Lean `String`s; the ECMAScript operations
  `toLowerCase` / `endsWith` are modelled character-wise (`jsToLower`,
  `jsEndsWith`).
* `Date.now()` is an external input: every operation that reads the clock
  takes the current millisecond value `now : Nat` as a parameter; the id it
  produces is `toString now`, mirroring `Date.now().toString()`.
* The result of `prompt(...)` is an external input `Option String`
  (`none` = user cancelled, `some l` = user entered `l`); JS truthiness of
  a string (`if (label)`) is `l != ""`.
* 3D coordinates carry no arithmetic in the verified code, so the
  components of a `THREE.Vector3` are modelled as rationals.
* React state updates inside one handler are modelled as one atomic
  function from session state to session state (the app is
  single-threaded and every handler runs to completion).
-/

namespace SwiftXR3d

/-- A 3D point, the `position: [number, number, number]` of a hotspot.
No arithmetic is performed on coordinates. -/
structure Vec3 where
  x : ℚ
  y : ℚ
  z : ℚ
  deriving DecidableEq, Repr

/-- The `interface Hotspot` of App.tsx: id, position, label. -/
structure Hotspot where
  id : String
  position : Vec3
  label : String
  deriving DecidableEq, Repr

/-- The React state of `SwiftXR3DEditor`: `modelUrl`, `hotspots`,
`isLoading`, `error`. -/
structure Session where
  modelUrl : Option String
  hotspots : List Hotspot
  isLoading : Bool
  error : Option String
  deriving DecidableEq, Repr

/-- The initial state of `SwiftXR3DEditor`:
`useState<string|null>(null)`, `useState<Hotspot[]>([])`,
`useState<boolean>(false)`, `useState<string|null>(null)`. -/
def initialSession : Session :=
  { modelUrl := none, hotspots := [], isLoading := false, error := none }

/-- ECMAScript `String.prototype.toLowerCase()` on the (ASCII) strings the
app compares: lowercases every character. -/
def jsToLower (s : String) : String :=
  ⟨s.data.map Char.toLower⟩

/-- ECMAScript `String.prototype.endsWith(search)`: the characters of
`suffix` are a suffix of the characters of `s`. -/
def jsEndsWith (s suffix : String) : Bool :=
  suffix.data.isSuffixOf s.data

/-- The extension check of `handleFileUpload`:
`file.name.toLowerCase().endsWith('.glb')`. -/
def isValidGlbName (name : String) : Bool :=
  jsEndsWith (jsToLower name) ".glb"

/-- A selected file; the upload handler only ever reads its name. -/
structure File where
  name : String
  deriving DecidableEq, Repr

/-- The error message set on extension mismatch. -/
def invalidFileMessage : String := "Please select a .GLB file"

/-- The `handleFileUpload` handler of App.tsx. `file?` is
`event.target.files?.[0]`; `url` is the handle produced by
`URL.createObjectURL(file)` (an external input of the browser).
The body: missing file → return; wrong extension → `setError(...)` and
return; otherwise `setIsLoading(true); setError(null); setModelUrl(url);
setHotspots([])` and `finally setIsLoading(false)`
(`URL.createObjectURL` does not throw, so the catch branch is dead). -/
def handleFileUpload (file? : Option File) (url : String) (s : Session) : Session :=
  match file? with
  | none => s
  | some file =>
    if ¬ isValidGlbName file.name then
      { s with error := some invalidFileMessage }
    else
      { s with modelUrl := some url, hotspots := [], error := none, isLoading := false }

/-- The `addHotspot` operation of App.tsx: builds
`{ id: Date.now().toString(), position, label }` and appends it
(`setHotspots(prev => [...prev, newHotspot])`). `now` is the value of
`Date.now()` at the call. -/
def addHotspot (now : Nat) (position : Vec3) (label : String) (s : Session) : Session :=
  { s with hotspots := s.hotspots ++ [{ id := toString now, position := position, label := label }] }

/-- The `deleteHotspot` operation of App.tsx:
`setHotspots(prev => prev.filter(h => h.id !== id))`. -/
def deleteHotspot (id : String) (s : Session) : Session :=
  { s with hotspots := s.hotspots.filter (fun h => h.id != id) }

/-- The `clearHotspots` operation of App.tsx: `setHotspots([])`. -/
def clearHotspots (s : Session) : Session :=
  { s with hotspots := [] }

/-- The Annotate path of the `Model` component's `handleClick`
(lines 81–85): read the intersection point, prompt for a label, and call
`onAddHotspot` only when the prompt result is truthy
(`if (label) { onAddHotspot(point, label) }`). -/
def annotatePath (point : Vec3) (promptResult : Option String) (now : Nat)
    (s : Session) : Session :=
  match promptResult with
  | none => s
  | some label => if label != "" then addHotspot now point label s else s

/-- Result of a click on the model: the session afterwards, and whether
`event.stopPropagation()` was called (`stopped = false` means the event
propagates to the `OrbitControls` camera collaborator). -/
structure ClickResult where
  session : Session
  stopped : Bool
  deriving DecidableEq, Repr

/-- The `handleClick` callback of the `Model` component: `if (event.shiftKey)` then
stop propagation and run the Annotate path, else do nothing (the event
propagates). `shiftKey` is the instantaneous modifier flag of the event,
`point` is `event.point` (the ray intersection resolved by the renderer),
`promptResult` the user's answer to `prompt`, `now` the clock. -/
def handleClick (shiftKey : Bool) (point : Vec3) (promptResult : Option String)
    (now : Nat) (s : Session) : ClickResult :=
  if shiftKey then
    { session := annotatePath point promptResult now s, stopped := true }
  else
    { session := s, stopped := false }

/-- One user-visible transition of the application. A click on the model
can only happen while a model is mounted: the `Scene` component renders
`Model` (the only owner of the click handler) under the guard
`{modelUrl && ...}` (App.tsx line 109), so the click step carries the
hypothesis `s.modelUrl.isSome`. -/
inductive Step : Session → Session → Prop
  | upload (file? : Option File) (url : String) (s : Session) :
      Step s (handleFileUpload file? url s)
  | click (shiftKey : Bool) (point : Vec3) (promptResult : Option String)
      (now : Nat) (s : Session) (hmodel : s.modelUrl.isSome) :
      Step s (handleClick shiftKey point promptResult now s).session
  | delete (id : String) (s : Session) : Step s (deleteHotspot id s)
  | clear (s : Session) : Step s (clearHotspots s)

/-- Session states reachable from the initial state by the declared
operations. -/
inductive Reachable : Session → Prop
  | init : Reachable initialSession
  | step {s s' : Session} : Reachable s → Step s s' → Reachable s'

/-- Spec-side predicate for C9, following the spec's words: the file name
ends with the expected extension `.glb` under a case-insensitive
comparison, i.e. the last four characters, each lowercased, are `.glb`. -/
def specExtensionMatch (name : String) : Bool :=
  match name.data.reverse with
  | b :: l :: g :: d :: _ =>
      b.toLower == 'b' && l.toLower == 'l' && g.toLower == 'g' && d.toLower == '.'
  | _ => false

/-- Spec-side trimming (ECMAScript `String.prototype.trim()`): drop
whitespace from both ends. The verified code never trims; this definition
only expresses the spec's phrase "empty after trimming". -/
def jsTrim (s : String) : String :=
  ⟨((s.data.dropWhile Char.isWhitespace).reverse.dropWhile Char.isWhitespace).reverse⟩

/-- A concrete session with a loaded model and one hotspot whose id is
`"0"` (the id assigned by an add at clock value 0). -/
def oneSession : Session :=
  { modelUrl := some "blob:0"
    hotspots := [{ id := "0", position := ⟨0, 0, 0⟩, label := "a" }]
    isLoading := false
    error := none }

/-- A concrete session holding two hotspots with the same id `"5"`: the
state produced by two shift-clicks during the same clock millisecond
(`Date.now()` returns 5 both times). -/
def dupSession : Session :=
  { modelUrl := some "blob:0"
    hotspots := [{ id := "5", position := ⟨0, 0, 0⟩, label := "a" },
                 { id := "5", position := ⟨1, 1, 1⟩, label := "b" }]
    isLoading := false
    error := none }

/- Helper lemmas shared by the claim theorems. -/

/-- The Annotate path never touches `modelUrl`. -/
theorem annotatePath_modelUrl (pt : Vec3) (pr : Option String) (now : Nat) (s : Session) :
    (annotatePath pt pr now s).modelUrl = s.modelUrl := by
  unfold annotatePath
  cases pr with
  | none => rfl
  | some l =>
    by_cases h : l != ""
    · simp [h, addHotspot]
    · simp [h]

/-- A click on the model never touches `modelUrl`. -/
theorem handleClick_session_modelUrl (shiftKey : Bool) (pt : Vec3) (pr : Option String)
    (now : Nat) (s : Session) :
    (handleClick shiftKey pt pr now s).session.modelUrl = s.modelUrl := by
  unfold handleClick
  by_cases h : shiftKey
  · simp [h, annotatePath_modelUrl]
  · simp [h]

/-- Filtering out an id that occurs in a list whose ids are pairwise
distinct shortens the list by exactly one. -/
theorem filter_ne_id_length {l : List Hotspot} {i : String}
    (hn : (l.map Hotspot.id).Nodup) (hm : i ∈ l.map Hotspot.id) :
    (l.filter (fun h => h.id != i)).length + 1 = l.length := by
  induction l with
  | nil => simp at hm
  | cons a t ih =>
    rw [List.map_cons, List.nodup_cons] at hn
    obtain ⟨ha, ht⟩ := hn
    by_cases hai : a.id = i
    · have hfil : t.filter (fun h => h.id != i) = t := by
        apply List.filter_eq_self.mpr
        intro b hb
        simp only [bne_iff_ne]
        intro hbi
        have hmem : b.id ∈ t.map Hotspot.id := List.mem_map_of_mem Hotspot.id hb
        rw [hbi, ← hai] at hmem
        exact ha hmem
      simp [List.filter_cons, hai, hfil]
    · have hm' : i ∈ t.map Hotspot.id := by
        rw [List.map_cons] at hm
        rcases List.mem_cons.mp hm with h1 | h2
        · exact absurd h1.symm hai
        · exact h2
      have hlen := ih ht hm'
      simp only [List.filter_cons, bne_iff_ne]
      rw [if_pos (by simpa using hai)]
      simp only [List.length_cons]
      omega

/-- The code's whole-string check `name.toLowerCase().endsWith('.glb')`
coincides with the spec's reading: the last four characters, compared
case-insensitively, are `.glb`. -/
theorem isValidGlbName_eq_spec (name : String) :
    isValidGlbName name = specExtensionMatch name := by
  unfold isValidGlbName specExtensionMatch jsEndsWith jsToLower
  have hglb : (".glb" : String).data = ['.', 'g', 'l', 'b'] := rfl
  rw [hglb]
  unfold List.isSuffixOf
  have hrev : (['.', 'g', 'l', 'b'] : List Char).reverse = ['b', 'l', 'g', '.'] := rfl
  rw [hrev, ← List.map_reverse]
  generalize name.data.reverse = r
  rcases r with _ | ⟨b, _ | ⟨l, _ | ⟨g, _ | ⟨d, rest⟩⟩⟩⟩
  · rfl
  · simp [List.isPrefixOf]
  · simp [List.isPrefixOf]
  · simp [List.isPrefixOf]
  · simp only [List.map_cons, List.isPrefixOf, Bool.and_true]
    rw [Bool.eq_iff_iff]
    simp only [Bool.and_eq_true, beq_iff_eq, and_assoc]
    constructor
    · rintro ⟨h1, h2, h3, h4⟩
      exact ⟨h1.symm, h2.symm, h3.symm, h4.symm⟩
    · rintro ⟨h1, h2, h3, h4⟩
      exact ⟨h1.symm, h2.symm, h3.symm, h4.symm⟩

end SwiftXR3d

namespace SwiftXR3d

/- Claim C1. -/

/-- C1 counterexample: at a state holding a hotspot with id `"0"` (added
at clock value 0), a further `addHotspot` during the same clock
millisecond assigns the id `"0"` again, so the newly assigned id equals
the id of a hotspot already present. -/
theorem addHotspot_id_collision :
    ("b" : String) ≠ "" ∧
    toString 0 ∈ oneSession.hotspots.map Hotspot.id ∧
    (addHotspot 0 ⟨1, 1, 1⟩ "b" oneSession).hotspots.map Hotspot.id = ["0", "0"] := by
  refine ⟨by decide, by decide, by decide⟩

/-- C1 (amended): `addHotspot` with a non-empty label always increases
the hotspot count by exactly one and appends a hotspot whose id is the
current clock millisecond rendered as a decimal string; the ids of the
resulting collection are pairwise distinct exactly when the old ones were
and no existing hotspot already carries that clock string as its id. -/
theorem addHotspot_count_and_id (now : Nat) (p : Vec3) (label : String) (s : Session)
    (hlabel : label ≠ "") :
    (addHotspot now p label s).hotspots.length = s.hotspots.length + 1 ∧
    (addHotspot now p label s).hotspots.map Hotspot.id
      = s.hotspots.map Hotspot.id ++ [toString now] ∧
    (((addHotspot now p label s).hotspots.map Hotspot.id).Nodup ↔
      (s.hotspots.map Hotspot.id).Nodup ∧ toString now ∉ s.hotspots.map Hotspot.id) := by
  refine ⟨by simp [addHotspot], by simp [addHotspot], ?_⟩
  simp [addHotspot, List.nodup_append, List.disjoint_singleton]

/-- C1 witness: adding the hotspot labelled `Engine` at clock value 7 to
the empty initial collection yields exactly one hotspot. -/
theorem addHotspot_count_and_id_witness :
    (addHotspot 7 ⟨1, 2, 3⟩ "Engine" initialSession).hotspots.length = 1 := by
  have h := addHotspot_count_and_id 7 ⟨1, 2, 3⟩ "Engine" initialSession (by decide)
  simpa [initialSession] using h.1

/- Claim C2. -/

/-- C2 counterexample: the label `" "` is empty after trimming, yet a
shift-click answered with `" "` creates a hotspot — the code only checks
JS truthiness of the prompt result and never trims. -/
theorem whitespace_label_creates_hotspot :
    jsTrim " " = "" ∧
    (handleClick true ⟨1, 2, 3⟩ (some " ") 5 initialSession).session.hotspots.length
      = initialSession.hotspots.length + 1 ∧
    (handleClick true ⟨1, 2, 3⟩ (some " ") 5 initialSession).session.hotspots
      = [{ id := "5", position := ⟨1, 2, 3⟩, label := " " }] := by
  refine ⟨by decide, by decide, by decide⟩

/-- C2 (amended): the hotspot-creation path with a cancelled prompt or
with the empty-string label leaves the whole session (hotspot collection
and error message included) unchanged; labels that are non-empty but
whitespace-only are not rejected. -/
theorem emptyLabel_noop (pt : Vec3) (now : Nat) (s : Session) :
    (handleClick true pt none now s).session = s ∧
    (handleClick true pt (some "") now s).session = s := by
  constructor <;> simp [handleClick, annotatePath]

/- Claim C3. -/

/-- C3: in every state reachable from the initial session state by the
declared operations, if `modelUrl` is `none` then the hotspot collection
is empty. -/
theorem reachable_no_model_no_hotspots {s : Session} (hr : Reachable s) :
    s.modelUrl = none → s.hotspots = [] := by
  induction hr with
  | init => intro _; rfl
  | step hr hstep ih =>
    cases hstep with
    | upload file? url t =>
      cases file? with
      | none => exact ih
      | some file =>
        by_cases hv : isValidGlbName file.name
        · intro h
          simp [handleFileUpload, hv] at h
        · intro h
          simp [handleFileUpload, hv] at h ⊢
          exact ih h
    | click shiftKey point promptResult now t hmodel =>
      intro h
      rw [handleClick_session_modelUrl] at h
      rw [h] at hmodel
      simp at hmodel
    | delete i t =>
      rename_i t
      intro h
      simp only [deleteHotspot] at h
      have ht : t.hotspots = [] := ih h
      simp [deleteHotspot, ht]
    | clear t =>
      intro _
      rfl

/-- C3 witness: after one rejected upload from the initial state —
a reachable state whose `modelUrl` is still `none` — the hotspot
collection is empty. -/
theorem reachable_no_model_no_hotspots_witness :
    (handleFileUpload (some ⟨"model.txt"⟩) "blob:0" initialSession).hotspots = [] :=
  reachable_no_model_no_hotspots
    (Reachable.step Reachable.init (Step.upload (some ⟨"model.txt"⟩) "blob:0" initialSession))
    (by decide)

/- Claim C4. -/

/-- C4: uploading a file whose name does not end in `.glb`
(case-insensitively) leaves `modelUrl`, the hotspot collection and the
loading flag unchanged and only sets the error message. -/
theorem invalid_extension_only_sets_error (file : File) (url : String) (s : Session)
    (hinv : isValidGlbName file.name = false) :
    (handleFileUpload (some file) url s).modelUrl = s.modelUrl ∧
    (handleFileUpload (some file) url s).hotspots = s.hotspots ∧
    (handleFileUpload (some file) url s).isLoading = s.isLoading ∧
    (handleFileUpload (some file) url s).error = some invalidFileMessage := by
  simp [handleFileUpload, hinv]

/-- C4 witness: rejecting `scene.gltf` keeps the hotspot collection and
sets the error message. -/
theorem invalid_extension_only_sets_error_witness :
    (handleFileUpload (some ⟨"scene.gltf"⟩) "blob:1" oneSession).hotspots
        = oneSession.hotspots ∧
    (handleFileUpload (some ⟨"scene.gltf"⟩) "blob:1" oneSession).error
        = some invalidFileMessage :=
  ⟨(invalid_extension_only_sets_error ⟨"scene.gltf"⟩ "blob:1" oneSession (by decide)).2.1,
   (invalid_extension_only_sets_error ⟨"scene.gltf"⟩ "blob:1" oneSession (by decide)).2.2.2⟩

/- Claim C5. -/

/-- C5 counterexample: in a collection holding two hotspots that share
the id `"5"`, deleting that present id removes both entries, so the
count drops by two, not by exactly one. -/
theorem deleteHotspot_duplicate_ids_removes_two :
    "5" ∈ dupSession.hotspots.map Hotspot.id ∧
    dupSession.hotspots.length = 2 ∧
    (deleteHotspot "5" dupSession).hotspots.length = 0 := by
  refine ⟨by decide, by decide, by decide⟩

/-- C5 (amended): `deleteHotspot` with an absent id is a no-op; with a
present id it always leaves that id absent afterwards, and it reduces the
count by exactly one provided the collection's ids are pairwise distinct
(with duplicated ids every duplicate is removed at once). -/
theorem deleteHotspot_spec (s : Session) (i : String) :
    (i ∉ s.hotspots.map Hotspot.id → deleteHotspot i s = s) ∧
    ((s.hotspots.map Hotspot.id).Nodup → i ∈ s.hotspots.map Hotspot.id →
      (deleteHotspot i s).hotspots.length + 1 = s.hotspots.length) ∧
    i ∉ (deleteHotspot i s).hotspots.map Hotspot.id := by
  refine ⟨?_, ?_, ?_⟩
  · intro hni
    have hfil : s.hotspots.filter (fun h => h.id != i) = s.hotspots := by
      apply List.filter_eq_self.mpr
      intro b hb
      simp only [bne_iff_ne]
      intro hbi
      exact hni (hbi ▸ List.mem_map_of_mem Hotspot.id hb)
    simp [deleteHotspot, hfil]
  · intro hn hm
    exact filter_ne_id_length hn hm
  · intro hmem
    simp only [deleteHotspot, List.mem_map] at hmem
    obtain ⟨b, hb, hbi⟩ := hmem
    rw [List.mem_filter] at hb
    exact (bne_iff_ne.mp hb.2) hbi

/-- C5 witness: deleting the absent id `"9"` from a one-hotspot session
changes nothing, and deleting the present id `"0"` lowers the count from
one to zero. -/
theorem deleteHotspot_spec_witness :
    deleteHotspot "9" oneSession = oneSession ∧
    (deleteHotspot "0" oneSession).hotspots.length + 1 = oneSession.hotspots.length :=
  ⟨(deleteHotspot_spec oneSession "9").1 (by decide),
   (deleteHotspot_spec oneSession "0").2.1 (by decide) (by decide)⟩

/- Claim C6. -/

/-- C6: successfully loading a file with a valid `.glb` name resets the
hotspot collection to empty, whatever it held before, and installs the
fresh object URL as the model source. -/
theorem valid_load_resets_hotspots (file : File) (url : String) (s : Session)
    (hv : isValidGlbName file.name = true) :
    (handleFileUpload (some file) url s).hotspots = [] ∧
    (handleFileUpload (some file) url s).modelUrl = some url := by
  simp [handleFileUpload, hv]

/-- C6 witness: loading `scene.glb` over a session that already holds a
hotspot empties the collection. -/
theorem valid_load_resets_hotspots_witness :
    (handleFileUpload (some ⟨"scene.glb"⟩) "blob:2" oneSession).hotspots = [] :=
  (valid_load_resets_hotspots ⟨"scene.glb"⟩ "blob:2" oneSession (by decide)).1

/- Claim C7. -/

/-- C7: a click without the shift modifier leaves the session unchanged
and lets the event propagate to the camera controls; a click with shift
consumes the event (stops propagation) and runs the Annotate path. The
dispatch reads only the instantaneous `shiftKey` flag of the event. -/
theorem handleClick_dispatch (shiftKey : Bool) (pt : Vec3) (pr : Option String)
    (now : Nat) (s : Session) :
    (shiftKey = false →
      handleClick shiftKey pt pr now s = { session := s, stopped := false }) ∧
    (shiftKey = true →
      (handleClick shiftKey pt pr now s).stopped = true ∧
      (handleClick shiftKey pt pr now s).session = annotatePath pt pr now s) := by
  constructor <;> rintro rfl <;> simp [handleClick]

/-- C7 witness: a concrete plain click passes through untouched and
unstopped, and the same click with shift held is stopped. -/
theorem handleClick_dispatch_witness :
    handleClick false ⟨1, 2, 3⟩ (some "Engine") 9 initialSession
      = { session := initialSession, stopped := false } ∧
    (handleClick true ⟨1, 2, 3⟩ (some "Engine") 9 initialSession).stopped = true :=
  ⟨(handleClick_dispatch false ⟨1, 2, 3⟩ (some "Engine") 9 initialSession).1 rfl,
   ((handleClick_dispatch true ⟨1, 2, 3⟩ (some "Engine") 9 initialSession).2 rfl).1⟩

/- Claim C8. -/

/-- C8: `clearHotspots` always yields an empty collection and is
idempotent: clearing twice is the same as clearing once. -/
theorem clearHotspots_empty_and_idempotent (s : Session) :
    (clearHotspots s).hotspots = [] ∧
    clearHotspots (clearHotspots s) = clearHotspots s :=
  ⟨rfl, rfl⟩

/- Claim C9. -/

/-- C9: the import validation accepts a file name exactly when its last
four characters, compared case-insensitively, are `.glb` (so both
`model.GLB` and `model.glb` pass), and this extension test is the only
validation: when it passes the upload proceeds to install the model, and
when it fails the upload only sets the error message. -/
theorem extension_validation (name : String) (file : File) (url : String) (s : Session) :
    isValidGlbName name = specExtensionMatch name ∧
    isValidGlbName "model.GLB" = true ∧
    isValidGlbName "model.glb" = true ∧
    (isValidGlbName file.name = true →
      handleFileUpload (some file) url s
        = { s with modelUrl := some url, hotspots := [], error := none, isLoading := false }) ∧
    (isValidGlbName file.name = false →
      handleFileUpload (some file) url s = { s with error := some invalidFileMessage }) := by
  refine ⟨isValidGlbName_eq_spec name, by decide, by decide, ?_, ?_⟩
  · intro hv
    simp [handleFileUpload, hv]
  · intro hv
    simp [handleFileUpload, hv]

/-- C9 witness: the upper-case name `part.GLB` is accepted and the load
proceeds from the initial state. -/
theorem extension_validation_witness :
    handleFileUpload (some ⟨"part.GLB"⟩) "blob:3" initialSession
      = { initialSession with
            modelUrl := some "blob:3", hotspots := [], error := none, isLoading := false } :=
  (extension_validation "x" ⟨"part.GLB"⟩ "blob:3" initialSession).2.2.2.1 (by decide)

/- Claim C10. -/

/-- C10: `deleteHotspot` removes every hotspot carrying the given id (all
of them when duplicates exist) and keeps the remaining hotspots as a
sublist of the original collection — same relative order and untouched
position and label fields — with every non-matching hotspot retained. -/
theorem deleteHotspot_removes_all_keeps_rest (s : Session) (i : String) :
    (∀ h ∈ (deleteHotspot i s).hotspots, h.id ≠ i) ∧
    List.Sublist (deleteHotspot i s).hotspots s.hotspots ∧
    (∀ h ∈ s.hotspots, h.id ≠ i → h ∈ (deleteHotspot i s).hotspots) := by
  refine ⟨?_, List.filter_sublist _, ?_⟩
  · intro h hm
    simp only [deleteHotspot] at hm
    exact bne_iff_ne.mp (List.mem_filter.mp hm).2
  · intro h hm hne
    simp only [deleteHotspot]
    exact List.mem_filter.mpr ⟨hm, bne_iff_ne.mpr hne⟩

/-- C10 witness: deleting id `"9"` from a session holding one hotspot
with id `"0"` keeps that hotspot, fields intact. -/
theorem deleteHotspot_removes_all_keeps_rest_witness :
    ({ id := "0", position := ⟨0, 0, 0⟩, label := "a" } : Hotspot)
      ∈ (deleteHotspot "9" oneSession).hotspots :=
  (deleteHotspot_removes_all_keeps_rest oneSession "9").2.2 _ (by decide) (by decide)

end SwiftXR3d
